import Mathlib

/-!
Shallow embedding of the geometry interchange codecs of the
iClient-JavaScript repository:

* the Route JSON codec, class SuperMap.Route in src/unnamed/part_000
  (fromJson, toJson);
* the WKT codec, class SuperMap.Format.WKT in
  src/src/common/format/WKT.js (read, write and the per-type parse and
  extract tables).

Coordinates are modelled as integers: every fixture appearing in the
specification and in the claims has integer coordinates, and the codecs
only transport coordinate values; the single computation on them is the
coordinate equality test used to classify rings.

JavaScript runtime failures are modelled with the exception monad
Except JsErr: a ReferenceError arises from evaluating an identifier with
no binding, and a TypeError from calling a method of undefined.  A
JavaScript undefined value obtained by indexing a list out of range is
modelled as none.
-/

/-- A JavaScript runtime error thrown by the embedded code. -/
inductive JsErr where
  | referenceError
  | typeError
deriving DecidableEq

/-- A measured point: x and y coordinates plus the measure M
(data model of SuperMap.PointWithMeasure, documented at part_000
lines 63-81). -/
structure MPoint where
  x : Int
  y : Int
  m : Int
deriving DecidableEq

/-- Modelled from the spec: SuperMap.PointWithMeasure.fromJson is not
under src/.  Per spec section 4.3 it builds a measured point from a JSON
entry carrying x, y and measure; an absent entry yields an absent
result. -/
def PointWithMeasure_fromJson (o : Option MPoint) : Option MPoint := o

/-- Modelled from the spec: SuperMap.PointWithMeasure.prototype.equals is
not under src/.  Per spec sections 3 and 4.3 the equality used by the
ring classification is exact coordinate equality; comparing against an
absent value is false. -/
def PointWithMeasure_equals (p : MPoint) (q : Option MPoint) : Bool :=
  match q with
  | some q => decide (p.x = q.x ∧ p.y = q.y)
  | none => false

/-- One component of a decoded Route.  The ring flag records whether the
part was classified as a LinearRing (true) or as a LineString (false);
pts holds the consumed point entries, where a none entry models the
JavaScript undefined obtained by indexing past the end of the flat
points array.  Modelled from the spec: the LineString and LinearRing
constructors are not under src/; per spec sections 3 and 9 they store
the supplied point list as given. -/
structure RComp where
  isRing : Bool
  pts : List (Option MPoint)
deriving DecidableEq

/-- The Route object (part_000 lines 19-105): routing metadata plus the
list of classified components. -/
structure Route where
  id : Option Int
  center : Option Int
  style : Option String
  length : Option Int
  maxM : Option Int
  minM : Option Int
  type : Option String
  parts : Option (List Nat)
  components : List RComp
deriving DecidableEq

/-- The Route JSON wire object (spec section 6): optional metadata
fields, the parts array of per-part point counts and the flat points
array. -/
structure RouteJson where
  id : Option Int
  center : Option Int
  style : Option String
  length : Option Int
  maxM : Option Int
  minM : Option Int
  type : Option String
  parts : Option (List Nat)
  points : Option (List MPoint)
deriving DecidableEq

/-- The part loop of SuperMap.Route.fromJson (part_000 lines 194-206):
for each part of size n the next n entries of the flat points array are
read through PointWithMeasure.fromJson (an out-of-range JavaScript index
yields undefined, modelled none), the part is classified by comparing
its first entry with the entry at index n-1, and the cursor advances by
n.  Calling equals on an undefined first entry is a TypeError. -/
def routeParts (geoPoints : List MPoint) : List Nat → Nat → Except JsErr (List RComp)
  | [], _ => .ok []
  | n :: rest, pointIndex =>
      let pointList : List (Option MPoint) :=
        (List.range n).map (fun j => PointWithMeasure_fromJson (geoPoints.get? (pointIndex + j)))
      match pointList.head? with
      | none => .error .typeError
      | some none => .error .typeError
      | some (some p0) =>
          let lastVal : Option MPoint := (pointList.get? (n - 1)).getD none
          match routeParts geoPoints rest (pointIndex + n) with
          | .error e => .error e
          | .ok tl => .ok (⟨PointWithMeasure_equals p0 lastVal, pointList⟩ :: tl)

/-- Embedding of SuperMap.Route.fromJson (part_000 lines 184-222): an
absent argument yields no result; with an empty or absent parts array
the function returns null; otherwise the part loop runs from cursor 0
and the metadata fields are copied verbatim from the JSON object. -/
def Route_fromJson (jsonObject : Option RouteJson) : Except JsErr (Option Route) :=
  match jsonObject with
  | none => .ok none
  | some obj =>
      let geoParts := obj.parts.getD []
      let geoPoints := obj.points.getD []
      if 0 < geoParts.length then
        match routeParts geoPoints geoParts 0 with
        | .error e => .error e
        | .ok lineList =>
            .ok (some ⟨obj.id, obj.center, obj.style, obj.length, obj.maxM, obj.minM,
              obj.type, obj.parts, lineList⟩)
      else .ok none

/-- C8: with an empty or absent parts array, Route.fromJson yields no
result (null or undefined, both modelled none) rather than an empty
Route instance. -/
theorem route_fromJson_empty_parts (obj : RouteJson)
    (h : obj.parts = none ∨ obj.parts = some []) :
    Route_fromJson (some obj) = .ok none := by
  rcases h with h | h <;> simp [Route_fromJson, h]

/-- Witness for C8 at a concrete object with an absent parts array. -/
theorem route_fromJson_empty_parts_w :
    Route_fromJson (some ⟨none, none, none, none, none, none, none, none, none⟩) = .ok none :=
  route_fromJson_empty_parts ⟨none, none, none, none, none, none, none, none, none⟩ (Or.inl rfl)

/-- C2: in the part loop of Route.fromJson, a part is classified as a
LinearRing exactly when its first and last measured point are
coordinate-equal, and as a LineString otherwise.  The part occupies
indices idx to idx + n - 1 of the flat points array. -/
theorem route_ring_classification (pts : List MPoint) (n : Nat) (rest : List Nat)
    (idx : Nat) (p0 plast : MPoint) (comps : List RComp)
    (hn : 1 ≤ n)
    (h0 : pts.get? idx = some p0)
    (hl : pts.get? (idx + (n - 1)) = some plast)
    (hok : routeParts pts (n :: rest) idx = .ok comps) :
    ∃ c tl, comps = c :: tl ∧ (c.isRing = true ↔ (p0.x = plast.x ∧ p0.y = plast.y)) := by
  obtain ⟨m, rfl⟩ : ∃ m, n = m + 1 := ⟨n - 1, (Nat.succ_pred_eq_of_pos hn).symm⟩
  have hhead :
      ((List.range (m + 1)).map
        (fun j => PointWithMeasure_fromJson (pts.get? (idx + j)))).head? = some (some p0) := by
    rw [List.head?_map, List.range_succ_eq_map]
    simpa [PointWithMeasure_fromJson] using h0
  have hget :
      ((List.range (m + 1)).map
        (fun j => PointWithMeasure_fromJson (pts.get? (idx + j)))).get? (m + 1 - 1) =
        some (some plast) := by
    rw [List.get?_map]
    simp only [Nat.add_sub_cancel]
    rw [List.get?_range (Nat.lt_succ_self m)]
    simpa [PointWithMeasure_fromJson] using hl
  simp only [routeParts, hhead, hget, Option.getD_some] at hok
  cases hrec : routeParts pts rest (idx + (m + 1)) with
  | error e => rw [hrec] at hok; exact absurd hok (by simp)
  | ok tl =>
      rw [hrec] at hok
      simp only [Except.ok.injEq] at hok
      refine ⟨_, tl, hok.symm, ?_⟩
      simp [PointWithMeasure_equals]

/-- Witness for C2 at the two example parts of the claim: the closed
part of four points classifies as a ring, exhibited through the general
theorem applied at the ring example. -/
theorem route_ring_classification_w :
    ∃ c tl,
      [(⟨true, [some (⟨0, 0, 0⟩ : MPoint), some ⟨1, 0, 0⟩, some ⟨1, 1, 0⟩, some ⟨0, 0, 0⟩]⟩ :
        RComp)] = c :: tl ∧
      (c.isRing = true ↔ ((0 : Int) = 0 ∧ (0 : Int) = 0)) :=
  route_ring_classification [⟨0, 0, 0⟩, ⟨1, 0, 0⟩, ⟨1, 1, 0⟩, ⟨0, 0, 0⟩] 4 [] 0
    ⟨0, 0, 0⟩ ⟨0, 0, 0⟩ _ (by decide) rfl rfl rfl

/-- The part loop consumes the flat points array on exactly the
partition given by the parts list: when every part is nonempty and the
cursor plus the remaining demanded points fit in the array, the loop
succeeds and yields one component per part, each of exactly the demanded
size. -/
theorem routeParts_sizes (pts : List MPoint) :
    ∀ (ps : List Nat) (idx : Nat), (∀ n ∈ ps, 1 ≤ n) → idx + ps.sum ≤ pts.length →
      ∃ comps, routeParts pts ps idx = .ok comps ∧
        comps.map (fun c => c.pts.length) = ps := by
  intro ps
  induction ps with
  | nil => exact fun idx _ _ => ⟨[], rfl, rfl⟩
  | cons n rest ih =>
      intro idx hpos hb
      rw [List.sum_cons] at hb
      have hn : 1 ≤ n := hpos n (List.mem_cons_self n rest)
      have hidx : idx < pts.length := by omega
      obtain ⟨p0, hp0⟩ : ∃ p0, pts.get? idx = some p0 :=
        ⟨_, List.get?_eq_get hidx⟩
      have hhead :
          ((List.range n).map
            (fun j => PointWithMeasure_fromJson (pts.get? (idx + j)))).head? = some (some p0) := by
        obtain ⟨m, rfl⟩ : ∃ m, n = m + 1 := ⟨n - 1, (Nat.succ_pred_eq_of_pos hn).symm⟩
        rw [List.head?_map, List.range_succ_eq_map]
        simpa [PointWithMeasure_fromJson] using hp0
      obtain ⟨tl, htl, hmap⟩ :=
        ih (idx + n) (fun k hk => hpos k (List.mem_cons_of_mem _ hk)) (by omega)
      refine ⟨⟨PointWithMeasure_equals p0
          ((((List.range n).map
            (fun j => PointWithMeasure_fromJson (pts.get? (idx + j)))).get? (n - 1)).getD none),
          (List.range n).map
            (fun j => PointWithMeasure_fromJson (pts.get? (idx + j)))⟩ :: tl, ?_, ?_⟩
      · simp only [routeParts, hhead, htl]
      · simpa using hmap

/-- C3: for every Route JSON object whose parts array exactly partitions
the points array (nonempty parts, sum of parts equal to the points
length), Route.fromJson succeeds with one component per part, so the
number of components equals the number of parts and the total point
count across the components equals the sum of the parts. -/
theorem route_fromJson_partition (obj : RouteJson) (ps : List Nat) (pts : List MPoint)
    (hp : obj.parts = some ps) (hq : obj.points = some pts) (hne : ps ≠ [])
    (hpos : ∀ n ∈ ps, 1 ≤ n) (hsum : ps.sum = pts.length) :
    ∃ r : Route, Route_fromJson (some obj) = .ok (some r) ∧
      r.components.length = ps.length ∧
      (r.components.map (fun c => c.pts.length)).sum = ps.sum := by
  obtain ⟨comps, hc, hm⟩ := routeParts_sizes pts ps 0 hpos (by omega)
  refine ⟨⟨obj.id, obj.center, obj.style, obj.length, obj.maxM, obj.minM, obj.type,
    obj.parts, comps⟩, ?_, ?_, ?_⟩
  · simp [Route_fromJson, hp, hq, hc, List.length_pos, hne]
  · simpa using congrArg List.length hm
  · rw [hm]

/-- Witness for C3 at a concrete object: a ring part of four points
followed by a line part of three points, over a flat array of seven
points. -/
theorem route_fromJson_partition_w :
    ∃ r : Route,
      Route_fromJson (some ⟨none, none, none, none, none, none, none, some [4, 3],
        some [⟨0, 0, 0⟩, ⟨1, 0, 0⟩, ⟨1, 1, 0⟩, ⟨0, 0, 0⟩, ⟨2, 2, 0⟩, ⟨3, 2, 0⟩, ⟨3, 3, 0⟩]⟩) =
        .ok (some r) ∧
      r.components.length = [4, 3].length ∧
      (r.components.map (fun c => c.pts.length)).sum = [4, 3].sum :=
  route_fromJson_partition _ [4, 3]
    [⟨0, 0, 0⟩, ⟨1, 0, 0⟩, ⟨1, 1, 0⟩, ⟨0, 0, 0⟩, ⟨2, 2, 0⟩, ⟨3, 2, 0⟩, ⟨3, 3, 0⟩]
    rfl rfl (by decide) (by decide) (by decide)

/-- A Route JSON object whose parts demand three points while the flat
points array holds only two: the sum of parts exceeds the points
length. -/
def overrunInput : RouteJson :=
  ⟨none, none, none, none, none, none, none, some [3], some [⟨0, 0, 0⟩, ⟨1, 0, 0⟩]⟩

/-- Whether a decode call returned normally rather than throwing. -/
def exceptIsOk : Except JsErr (Option Route) → Bool
  | .ok _ => true
  | .error _ => false

/-- Number of fabricated point entries (undefined values obtained by
reading past the end of the points array) in a decoded result. -/
def fabricatedCount : Except JsErr (Option Route) → Nat
  | .ok (some r) => (r.components.map (fun c => (c.pts.filter (fun p => p.isNone)).length)).sum
  | _ => 0

/-- C9 counterexample: with parts summing to three over a points array
of length two, Route.fromJson neither reports a failure nor avoids the
out-of-range access: the call returns normally and the resulting Route
contains a fabricated absent point, refuting the claim that a short
points array is fatal and reportable rather than silently padded. -/
theorem route_fromJson_overrun_cex :
    ¬ (exceptIsOk (Route_fromJson (some overrunInput)) = false ∨
       fabricatedCount (Route_fromJson (some overrunInput)) = 0) := by decide

/-- Reading list indices 0 to n-1 of a list of length at most n yields
the list itself followed by absent entries for the out-of-range tail. -/
theorem range_map_get?_of_le (l : List MPoint) :
    ∀ n, l.length ≤ n →
      (List.range n).map (fun j => l.get? j) =
        l.map some ++ List.replicate (n - l.length) none := by
  induction l with
  | nil =>
      intro n _
      simp [List.map_const']
  | cons a tl ih =>
      intro n hn
      obtain ⟨m, rfl⟩ : ∃ m, n = m + 1 :=
        ⟨n - 1, (Nat.succ_pred_eq_of_pos (by simp at hn; omega)).symm⟩
      rw [List.range_succ_eq_map, List.map_cons, List.map_map]
      have hcomp :
          ((fun j => (a :: tl).get? j) ∘ Nat.succ) = fun j => tl.get? j := by
        funext j; rfl
      rw [hcomp, ih m (by simpa using hn)]
      simp

/-- Entries of a replicate list. -/
theorem replicate_get?_lt (k i : Nat) (h : i < k) :
    (List.replicate k (none : Option MPoint)).get? i = some none := by
  induction k generalizing i with
  | zero => omega
  | succ k ih =>
      cases i with
      | zero => rfl
      | succ i => simpa [List.replicate_succ] using ih i (by omega)

/-- C9 amended: when the sum of the parts exceeds the length of the
points array (single-part statement), Route.fromJson does read past the
end of the points array; the out-of-range entries come back as absent
(undefined) values that are silently incorporated into an open
LineString component, and no failure is reported. -/
theorem route_fromJson_overrun_amended (obj : RouteJson) (n : Nat) (pts : List MPoint)
    (hp : obj.parts = some [n]) (hq : obj.points = some pts)
    (h1 : 0 < pts.length) (h2 : pts.length < n) :
    ∃ r : Route, Route_fromJson (some obj) = .ok (some r) ∧
      r.components = [⟨false, pts.map some ++ List.replicate (n - pts.length) none⟩] := by
  have hlist :
      (List.range n).map (fun j => PointWithMeasure_fromJson (pts.get? (0 + j))) =
        pts.map some ++ List.replicate (n - pts.length) none := by
    have := range_map_get?_of_le pts n (Nat.le_of_lt h2)
    simpa [PointWithMeasure_fromJson] using this
  obtain ⟨p0, tl0, rfl⟩ : ∃ p0 tl0, pts = p0 :: tl0 := by
    cases pts with
    | nil => simp at h1
    | cons p0 tl0 => exact ⟨p0, tl0, rfl⟩
  have h2' : tl0.length + 1 < n := by simpa using h2
  have hheadL :
      ((p0 :: tl0).map some ++ List.replicate (n - (p0 :: tl0).length) none).head? =
        some (some p0) := by
    simp
  have hlastL :
      ((p0 :: tl0).map some ++ List.replicate (n - (p0 :: tl0).length) none).get? (n - 1) =
        some none := by
    rw [List.get?_append_right (by simp; omega)]
    rw [List.length_map]
    exact replicate_get?_lt _ _ (by simp only [List.length_cons]; omega)
  have hloop : routeParts (p0 :: tl0) [n] 0 =
      .ok [⟨false, (p0 :: tl0).map some ++ List.replicate (n - (p0 :: tl0).length) none⟩] := by
    simp only [routeParts, hlist, hheadL, hlastL, Option.getD_some, PointWithMeasure_equals]
  refine ⟨⟨obj.id, obj.center, obj.style, obj.length, obj.maxM, obj.minM, obj.type,
    obj.parts, [⟨false, (p0 :: tl0).map some ++ List.replicate (n - (p0 :: tl0).length) none⟩]⟩,
    ?_, rfl⟩
  simp only [Route_fromJson, hp, hq, Option.getD_some]
  rw [hloop]
  simp

/-- Witness for the amended C9 at the concrete overrun input. -/
theorem route_fromJson_overrun_amended_w :
    ∃ r : Route, Route_fromJson (some overrunInput) = .ok (some r) ∧
      r.components = [⟨false, ([⟨0, 0, 0⟩, ⟨1, 0, 0⟩] : List MPoint).map some ++
        List.replicate (3 - ([⟨0, 0, 0⟩, ⟨1, 0, 0⟩] : List MPoint).length) none⟩] :=
  route_fromJson_overrun_amended overrunInput 3 [⟨0, 0, 0⟩, ⟨1, 0, 0⟩]
    rfl rfl (by decide) (by decide)

/-- Two strings with the same character data are equal. -/
theorem string_data_ext (a b : String) (h : a.data = b.data) : a = b := by
  cases a with
  | mk da =>
      cases b with
      | mk db => exact congrArg String.mk h

/-- The character data of an appended string. -/
theorem string_data_append (a b : String) : (a ++ b).data = a.data ++ b.data := by
  cases a
  cases b
  rfl

/-- Embedding of result.replace with the comma-at-end pattern and the
empty replacement (part_000 lines 150 and 153): one trailing comma is
removed when present. -/
def trimComma (s : String) : String :=
  match s.data.getLast? with
  | some ch => if ch = ',' then String.mk s.data.dropLast else s
  | none => s

/-- trimComma on data ending in a comma drops exactly that comma. -/
theorem trimComma_data (s : String) (l : List Char) (h : s.data = l ++ [',']) :
    (trimComma s).data = l := by
  unfold trimComma
  rw [h, List.getLast?_concat]
  simp [List.dropLast_concat]

/-- trimComma removes a final comma appended to any string. -/
theorem trimComma_concat (a : String) : trimComma (a ++ ",") = a := by
  apply string_data_ext
  rw [trimComma_data (a ++ ",") a.data (by rw [string_data_append])]

/-- One numeric metadata field of Route.toJson (part_000 lines 113-131):
when present the field is emitted as the quoted key, a colon, the bare
number and a trailing comma; when absent nothing is emitted. -/
def numSeg (key : String) (v : Option Int) : String :=
  match v with
  | some n => "\"" ++ key ++ "\":" ++ toString n ++ ","
  | none => ""

/-- The style field of Route.toJson (part_000 lines 120-122): the string
value is concatenated bare, with no surrounding quotes. -/
def styleSeg : Option String → String
  | some v => "\"style\":" ++ v ++ ","
  | none => ""

/-- The type field of Route.toJson (part_000 lines 132-134): the string
value is wrapped in double quotes. -/
def typeSeg : Option String → String
  | some v => "\"type\":\"" ++ v ++ "\","
  | none => ""

/-- The body of the parts field of Route.toJson (part_000 lines
136-141): the first entry is emitted by direct indexing, so an empty
array stringifies its missing index 0 as undefined; the remaining
entries follow with comma separators. -/
def partsBody : List Nat → String
  | [] => "undefined"
  | x :: xs => toString x ++ String.join (xs.map (fun v => "," ++ toString v))

/-- The parts field of Route.toJson (part_000 lines 135-142). -/
def partsSeg : Option (List Nat) → String
  | some l => "\"parts\":[" ++ partsBody l ++ "],"
  | none => ""

/-- Modelled from the spec: the per-point JSON encoding invoked by
Route.toJson (the toJson method of the point class is not under src/);
the key order follows the points example documented at part_000 lines
65-79. -/
def mpointToJson (p : MPoint) : String :=
  "\x7b\"measure\":" ++ toString p.m ++ ",\"y\":" ++ toString p.y ++
    ",\"x\":" ++ toString p.x ++ "\x7d"

/-- The points loop of Route.toJson (part_000 lines 144-149): every
point of every component is emitted followed by a comma; calling toJson
on an undefined (fabricated) entry is a TypeError. -/
def pointsBody (comps : List RComp) : Except JsErr String :=
  comps.foldlM
    (fun acc comp =>
      comp.pts.foldlM
        (fun acc2 po =>
          match po with
          | some p => Except.ok (acc2 ++ mpointToJson p ++ ",")
          | none => Except.error JsErr.typeError) acc)
    ""

/-- Embedding of SuperMap.Route.prototype.toJson (part_000 lines
112-156): the metadata fields are concatenated in source order; when
components exist the flattened points are appended, with one trailing
comma trimmed before the closing bracket; a trailing comma is trimmed
once more before the final closing brace. -/
def Route_toJson (r : Route) : Except JsErr String :=
  let res := "\x7b" ++ numSeg "id" r.id ++ numSeg "center" r.center ++ styleSeg r.style ++
    numSeg "length" r.length ++ numSeg "maxM" r.maxM ++ numSeg "minM" r.minM ++
    typeSeg r.type ++ partsSeg r.parts
  if 0 < r.components.length then
    match pointsBody r.components with
    | .error e => .error e
    | .ok pb => .ok (trimComma (trimComma (res ++ "\"points\":[" ++ pb) ++ "]") ++ "\x7d")
  else .ok (trimComma res ++ "\x7d")

/-- C10: in Route.toJson only the type string field is wrapped in double
quotes; a present style string is concatenated bare, so the style
segment of the emitted text differs from the JSON-string segment the
documented schema requires. -/
theorem route_toJson_style_unquoted (i c len mm mn : Option Int) (s t : String) :
    Route_toJson ⟨i, c, some s, len, mm, mn, some t, none, []⟩ =
      .ok ("\x7b" ++ numSeg "id" i ++ numSeg "center" c ++ ("\"style\":" ++ s ++ ",") ++
        numSeg "length" len ++ numSeg "maxM" mm ++ numSeg "minM" mn ++
        ("\"type\":\"" ++ t ++ "\"") ++ "\x7d") ∧
    ("\"style\":" ++ s ++ ",") ≠ ("\"style\":\"" ++ s ++ "\",") := by
  constructor
  · have hbranch : Route_toJson ⟨i, c, some s, len, mm, mn, some t, none, []⟩ =
        .ok (trimComma ("\x7b" ++ numSeg "id" i ++ numSeg "center" c ++
          ("\"style\":" ++ s ++ ",") ++ numSeg "length" len ++ numSeg "maxM" mm ++
          numSeg "minM" mn ++ ("\"type\":\"" ++ t ++ "\",") ++ "") ++ "\x7d") := rfl
    have hsplit : "\x7b" ++ numSeg "id" i ++ numSeg "center" c ++
          ("\"style\":" ++ s ++ ",") ++ numSeg "length" len ++ numSeg "maxM" mm ++
          numSeg "minM" mn ++ ("\"type\":\"" ++ t ++ "\",") ++ "" =
        ("\x7b" ++ numSeg "id" i ++ numSeg "center" c ++ ("\"style\":" ++ s ++ ",") ++
          numSeg "length" len ++ numSeg "maxM" mm ++ numSeg "minM" mn ++
          ("\"type\":\"" ++ t ++ "\"")) ++ "," := by
      apply string_data_ext
      simp only [string_data_append, List.append_assoc, List.append_nil,
        show ("" : String).data = [] from rfl,
        show ("\"," : String).data = ['\"'] ++ [','] from rfl,
        show ("\"" : String).data = ['\"'] from rfl,
        show ("," : String).data = [','] from rfl,
        List.singleton_append, List.cons_append, List.nil_append]
    rw [hbranch, hsplit, trimComma_concat]
  · intro h
    have h2 := congrArg String.length h
    simp only [String.length_append,
      show ("\"style\":" : String).length = 8 from rfl,
      show ("\"style\":\"" : String).length = 9 from rfl,
      show ("," : String).length = 1 from rfl,
      show ("\"," : String).length = 2 from rfl] at h2
    omega

/-- Witness for C10 at a concrete style and type. -/
theorem route_toJson_style_unquoted_w :
    Route_toJson ⟨some 1, none, some "red", none, none, none, some "LINEM", none, []⟩ =
      .ok ("\x7b" ++ numSeg "id" (some 1) ++ numSeg "center" none ++
        ("\"style\":" ++ "red" ++ ",") ++ numSeg "length" none ++ numSeg "maxM" none ++
        numSeg "minM" none ++ ("\"type\":\"" ++ "LINEM" ++ "\"") ++ "\x7d") ∧
    ("\"style\":" ++ "red" ++ ",") ≠ ("\"style\":\"" ++ "red" ++ "\",") :=
  route_toJson_style_unquoted (some 1) none none none none "red" "LINEM"

/-- The whitespace class of the regular expressions in WKT.js,
restricted to the ASCII whitespace characters that can occur in the
modelled inputs. -/
def isJsSpace (ch : Char) : Bool :=
  ch == ' ' || ch == '\t' || ch == '\n' || ch == '\r' || ch == '\x0b' || ch == '\x0c'

/-- The word class of the typeStr regular expression of WKT.js line
16. -/
def isWordChar (ch : Char) : Bool := ch.isAlphanum || ch == '_'

/-- The replacement of line breaks by spaces (WKT.js line 37). -/
def normalizeBreaks (s : String) : String :=
  String.mk (s.data.map (fun ch => if ch == '\n' || ch == '\r' then ' ' else ch))

/-- Lower-casing of the type keyword (WKT.js line 40). -/
def jsLower (s : String) : String := String.mk (s.data.map Char.toLower)

/-- Modelled from the spec: SuperMap.String.trim is not under src/; per
the whitespace-tolerant grammar of spec section 6 it strips leading and
trailing whitespace. -/
def jsTrim (s : String) : String :=
  String.mk ((s.data.dropWhile isJsSpace).reverse.dropWhile isJsSpace).reverse

/-- The typeStr regular expression of WKT.js line 16 executed on
character data: optional leading whitespace, a nonempty greedy word (the
type keyword), optional whitespace, an opening parenthesis, then the
greedy dot-star body group, which extends to the closing parenthesis
that is the last character apart from trailing whitespace; the leading
whitespace of the body is absorbed by the whitespace atom before the
group. -/
def typeStrExecL (l : List Char) : Option (List Char × List Char) :=
  let l1 := l.dropWhile isJsSpace
  let w := l1.takeWhile isWordChar
  let r1 := l1.dropWhile isWordChar
  if w.isEmpty then none
  else
    match r1.dropWhile isJsSpace with
    | '(' :: rest =>
        match rest.reverse.dropWhile isJsSpace with
        | ')' :: revBody => some (w, revBody.reverse.dropWhile isJsSpace)
        | _ => none
    | _ => none

/-- The typeStr match on strings: the captured type keyword and body. -/
def typeStrExec (s : String) : Option (String × String) :=
  (typeStrExecL s.data).map (fun p => (String.mk p.1, String.mk p.2))

/-- Generic regex split: scan left to right and, wherever the separator
matcher fires, cut and continue after the separator.  The fuel is the
input length, which bounds the scan because the matcher always consumes
at least one character. -/
def splitGo (sep : List Char → Option (List Char)) :
    Nat → List Char → List Char → List (List Char)
  | 0, acc, rest => [acc.reverse ++ rest]
  | _ + 1, acc, [] => [acc.reverse]
  | fuel + 1, acc, ch :: rest =>
      match sep (ch :: rest) with
      | some rem => acc.reverse :: splitGo sep fuel [] rem
      | none => splitGo sep fuel (ch :: acc) rest

/-- Regex split on strings. -/
def splitBy (sep : List Char → Option (List Char)) (s : String) : List String :=
  (splitGo sep s.data.length [] s.data).map String.mk

/-- Separator of the spaces pattern (WKT.js line 17): a maximal
whitespace run. -/
def spaceSep : List Char → Option (List Char)
  | ch :: rest => if isJsSpace ch then some (rest.dropWhile isJsSpace) else none
  | [] => none

/-- Separator of the parenComma pattern (WKT.js line 18): a closing
parenthesis, optional whitespace, a comma, optional whitespace, an
opening parenthesis. -/
def parenCommaSep : List Char → Option (List Char)
  | ')' :: rest =>
      match rest.dropWhile isJsSpace with
      | ',' :: r2 =>
          match r2.dropWhile isJsSpace with
          | '(' :: r3 => some r3
          | _ => none
      | _ => none
  | _ => none

/-- Separator of the doubleParenComma pattern (WKT.js line 19): two
closing parentheses, a comma and two opening parentheses, each pair of
neighbours separated by optional whitespace. -/
def doubleParenCommaSep : List Char → Option (List Char)
  | ')' :: rest =>
      match rest.dropWhile isJsSpace with
      | ')' :: r2 =>
          match r2.dropWhile isJsSpace with
          | ',' :: r3 =>
              match r3.dropWhile isJsSpace with
              | '(' :: r4 =>
                  match r4.dropWhile isJsSpace with
                  | '(' :: r5 => some r5
                  | _ => none
              | _ => none
          | _ => none
      | _ => none
  | _ => none

/-- Split on runs of whitespace, as used by parse.point. -/
def splitSpaces (s : String) : List String := splitBy spaceSep s

/-- Split at the parenComma boundary, as used by parse.multilinestring
and parse.polygon. -/
def splitParenComma (s : String) : List String := splitBy parenCommaSep s

/-- Split at the doubleParenComma boundary, as used by
parse.multipolygon. -/
def splitDoubleParenComma (s : String) : List String := splitBy doubleParenCommaSep s

/-- Separator matcher for a plain one-character separator. -/
def plainSep (c : Char) : List Char → Option (List Char)
  | ch :: rest => if ch == c then some rest else none
  | [] => none

/-- JavaScript String.split with a plain one-character separator: every
occurrence is a boundary, and adjacent occurrences yield empty
pieces. -/
def splitPlain (c : Char) (s : String) : List String := splitBy (plainSep c) s

/-- The trimParens replacement (WKT.js line 20) applied with group 1:
strip leading whitespace, one optional opening parenthesis, trailing
whitespace, and one optional closing parenthesis standing before that
trailing whitespace. -/
def trimParens (s : String) : String :=
  let l1 := s.data.dropWhile isJsSpace
  let l2 := match l1 with
    | '(' :: r => r
    | _ => l1
  let r1 := l2.reverse.dropWhile isJsSpace
  let r2 := match r1 with
    | ')' :: r => r
    | _ => r1
  String.mk r2.reverse

/-- The member-boundary replacement of parse.geometrycollection (WKT.js
line 347): every comma followed by optional whitespace and a letter is
replaced, together with that whitespace, by a vertical bar, keeping the
letter. -/
def gcMarkGo : Nat → List Char → List Char
  | 0, l => l
  | _ + 1, [] => []
  | fuel + 1, ',' :: rest =>
      match rest.dropWhile isJsSpace with
      | ch :: r2 =>
          if ch.isAlpha then '|' :: gcMarkGo fuel (ch :: r2)
          else ',' :: gcMarkGo fuel rest
      | [] => ',' :: gcMarkGo fuel rest
  | fuel + 1, ch :: rest => ch :: gcMarkGo fuel rest

/-- The member-boundary replacement on strings. -/
def gcMark (s : String) : String := String.mk (gcMarkGo s.data.length s.data)

/-- The member fragments of a geometrycollection body (WKT.js lines
347-348): mark the boundaries, trim, split on the vertical bar. -/
def gcSplit (str : String) : List String := splitPlain '|' (jsTrim (gcMark str))

/-- The geometry model (spec section 3): per-kind component lists and
the heterogeneous collection.  The linearring kind exists in the model
but has no entry in the extract table of WKT.js. -/
inductive Geometry where
  | point (x y : Int)
  | multipoint (components : List (Int × Int))
  | linestring (components : List (Int × Int))
  | linearring (components : List (Int × Int))
  | multilinestring (components : List (List (Int × Int)))
  | polygon (components : List (List (Int × Int)))
  | multipolygon (components : List (List (List (Int × Int))))
  | collection (components : List Geometry)

/-- A vector feature wrapping a geometry (SuperMap.Feature.Vector). -/
structure Feature where
  geometry : Geometry

/-- extract.point (WKT.js lines 129-131): space-separated
coordinates. -/
def extract_point (x y : Int) : String := toString x ++ " " ++ toString y

/-- extract.multipoint (WKT.js lines 139-147): parenthesised points
joined by commas. -/
def extract_multipoint (components : List (Int × Int)) : String :=
  String.intercalate "," (components.map (fun p => "(" ++ extract_point p.1 p.2 ++ ")"))

/-- extract.linestring (WKT.js lines 155-161): points joined by
commas. -/
def extract_linestring (components : List (Int × Int)) : String :=
  String.intercalate "," (components.map (fun p => extract_point p.1 p.2))

/-- extract.multilinestring (WKT.js lines 169-177): parenthesised
linestrings joined by commas. -/
def extract_multilinestring (components : List (List (Int × Int))) : String :=
  String.intercalate "," (components.map (fun l => "(" ++ extract_linestring l ++ ")"))

/-- extract.polygon (WKT.js lines 184-192): each ring goes through the
linestring extractor. -/
def extract_polygon (components : List (List (Int × Int))) : String :=
  String.intercalate "," (components.map (fun l => "(" ++ extract_linestring l ++ ")"))

/-- extract.multipolygon (WKT.js lines 200-208): parenthesised polygons
joined by commas. -/
def extract_multipolygon (components : List (List (List (Int × Int)))) : String :=
  String.intercalate "," (components.map (fun pg => "(" ++ extract_polygon pg ++ ")"))

mutual

/-- extractGeometry (WKT.js lines 103-115): dispatch on the runtime
kind; linearring has no extract entry, so it yields null; the keyword is
the upper-cased kind, with collection mapped to GEOMETRYCOLLECTION.  The
projection branch is not configured in the defaults and is omitted. -/
def extractGeometry : Geometry → Option String
  | .point x y => some ("POINT(" ++ extract_point x y ++ ")")
  | .multipoint cs => some ("MULTIPOINT(" ++ extract_multipoint cs ++ ")")
  | .linestring cs => some ("LINESTRING(" ++ extract_linestring cs ++ ")")
  | .linearring _ => none
  | .multilinestring cs => some ("MULTILINESTRING(" ++ extract_multilinestring cs ++ ")")
  | .polygon cs => some ("POLYGON(" ++ extract_polygon cs ++ ")")
  | .multipolygon cs => some ("MULTIPOLYGON(" ++ extract_multipolygon cs ++ ")")
  | .collection cs =>
      some ("GEOMETRYCOLLECTION(" ++ String.intercalate "," (extractMembers cs) ++ ")")

/-- extract.collection (WKT.js lines 215-221): members re-enter
extractGeometry; a null member joins as the empty string. -/
def extractMembers : List Geometry → List String
  | [] => []
  | g :: gs => ((extractGeometry g).getD "") :: extractMembers gs

end

/-- The argument of WKT.write (WKT.js lines 71-79): one feature or an
array of features. -/
inductive WKTInput where
  | one (f : Feature)
  | many (fs : List Feature)

/-- Embedding of WKT.write (WKT.js lines 71-95): an array is wrapped in
GEOMETRYCOLLECTION with members joined by commas; a single feature is
emitted bare; a null extraction joins as the empty string. -/
def WKT_write : WKTInput → String
  | .one f => (extractGeometry f.geometry).getD ""
  | .many fs =>
      "GEOMETRYCOLLECTION(" ++
        String.intercalate "," (fs.map (fun f => (extractGeometry f.geometry).getD "")) ++ ")"

/-- Embedding of parse.point (WKT.js lines 237-241): the body is
trimmed and split on whitespace, then the construction of the point
dereferences the identifier Supermap, which has no binding in the module
(only SuperMap is imported), so the call throws a ReferenceError for
every body. -/
def parse_point (str : String) : Except JsErr Feature :=
  let _coords := splitSpaces (jsTrim str)
  .error .referenceError

/-- Embedding of parse.multipoint (WKT.js lines 249-260): the trimmed
body splits on commas, each piece has its parens trimmed and goes
through parse.point, whose Supermap dereference throws; a split always
yields at least one piece, and the closing Supermap.MultiPoint
construction would throw regardless. -/
def parse_multipoint (str : String) : Except JsErr Feature := do
  let points := splitPlain ',' (jsTrim str)
  let _components ← points.foldlM
    (fun comps pt => (parse_point (trimParens pt)).map (fun f => comps ++ [f.geometry]))
    ([] : List Geometry)
  .error .referenceError

/-- Embedding of parse.linestring (WKT.js lines 268-277): the trimmed
body splits on commas and each piece goes through parse.point, whose
Supermap dereference throws; the closing Supermap.LineString
construction would throw regardless. -/
def parse_linestring (str : String) : Except JsErr Feature := do
  let points := splitPlain ',' (jsTrim str)
  let _components ← points.foldlM
    (fun comps pt => (parse_point pt).map (fun f => comps ++ [f.geometry]))
    ([] : List Geometry)
  .error .referenceError

/-- Embedding of parse.multilinestring (WKT.js lines 285-296): the
trimmed body splits at the parenComma boundary, each piece has its
parens trimmed and goes through parse.linestring, which throws; the
closing Supermap.MultiLineString construction would throw regardless. -/
def parse_multilinestring (str : String) : Except JsErr Feature := do
  let lines := splitParenComma (jsTrim str)
  let _components ← lines.foldlM
    (fun comps line => (parse_linestring (trimParens line)).map (fun f => comps ++ [f.geometry]))
    ([] : List Geometry)
  .error .referenceError

/-- Embedding of parse.polygon (WKT.js lines 304-317): the trimmed body
splits at the parenComma boundary, each ring goes through
parse.linestring, which throws; the Supermap.LinearRing and
Supermap.Polygon constructions would throw regardless. -/
def parse_polygon (str : String) : Except JsErr Feature := do
  let rings := splitParenComma (jsTrim str)
  let _components ← rings.foldlM
    (fun comps ring => (parse_linestring (trimParens ring)).map (fun f => comps ++ [f.geometry]))
    ([] : List Geometry)
  .error .referenceError

/-- Embedding of parse.multipolygon (WKT.js lines 325-336): the trimmed
body splits at the doubleParenComma boundary, each piece goes through
parse.polygon, which throws; the closing Supermap.MultiPolygon
construction would throw regardless. -/
def parse_multipolygon (str : String) : Except JsErr Feature := do
  let polygons := splitDoubleParenComma (jsTrim str)
  let _components ← polygons.foldlM
    (fun comps pg => (parse_polygon (trimParens pg)).map (fun f => comps ++ [f.geometry]))
    ([] : List Geometry)
  .error .referenceError

/-- Embedding of parse.geometrycollection (WKT.js lines 345-354): the
body is marked and split into member fragments, and the loop then
invokes WKT.read on the first fragment; read is an instance method, so
the static property WKT.read is undefined and the call is a TypeError;
a split always yields at least one fragment. -/
def parse_geometrycollection (str : String) : Except JsErr (List Feature) :=
  let _wktArray := gcSplit str
  .error .typeError

/-- The result of WKT.read (WKT.js lines 32-34): a single feature, an
array of features for a geometrycollection, or the String wrapper
object produced when the table lookup inherits the Object constructor
and read calls Object.apply on the body. -/
inductive WKTResult where
  | feature (f : Feature)
  | features (fs : List Feature)
  | stringObject (s : String)

/-- A truthy value found by the property lookup this.parse[type]
(WKT.js line 42).  The parse table is a plain object, so the lookup
walks the prototype chain: besides the seven own entries, the only
inherited properties whose names are entirely lower case, and hence
reachable from a lower-cased keyword, are constructor (the Object
function) and the accessor giving the prototype object itself. -/
inductive ParseHit where
  | parser (p : String → Except JsErr WKTResult)
  | objectCtor
  | objectProto

/-- The parse dispatch lookup of WKT.js lines 230-356, performed with
the lower-cased type keyword (WKT.js line 42), including the
prototype-chain hits of a plain-object table. -/
def parseTable (ty : String) : Option ParseHit :=
  if ty = "point" then some (.parser (fun s => (parse_point s).map .feature))
  else if ty = "multipoint" then some (.parser (fun s => (parse_multipoint s).map .feature))
  else if ty = "linestring" then some (.parser (fun s => (parse_linestring s).map .feature))
  else if ty = "multilinestring" then
    some (.parser (fun s => (parse_multilinestring s).map .feature))
  else if ty = "polygon" then some (.parser (fun s => (parse_polygon s).map .feature))
  else if ty = "multipolygon" then some (.parser (fun s => (parse_multipolygon s).map .feature))
  else if ty = "geometrycollection" then
    some (.parser (fun s => (parse_geometrycollection s).map .features))
  else if ty = "constructor" then some .objectCtor
  else if ty = "__proto__" then some .objectProto
  else none

/-- Embedding of WKT.read (WKT.js lines 35-62): line breaks become
spaces, the typeStr pattern is matched, the keyword is lower-cased and
looked up in the parse table; a falsy lookup leaves the features
variable undefined and read returns it.  A truthy lookup is invoked
through apply: an own entry runs its parser; the inherited Object
constructor wraps the body in a String object which read then returns;
the inherited prototype object has no apply method, so that call is a
TypeError.  The reprojection branch is not configured in the defaults
and is omitted. -/
def WKT_read (wkt : String) : Except JsErr (Option WKTResult) :=
  match typeStrExec (normalizeBreaks wkt) with
  | none => .ok none
  | some (ty, body) =>
      match parseTable (jsLower ty) with
      | none => .ok none
      | some (.parser p) => (p body).map some
      | some .objectCtor => .ok (some (.stringObject body))
      | some .objectProto => .error .typeError

/-- C1: the round trip fails in the code.  write on a point feature
produces POINT(1 2), but read of that very string throws a
ReferenceError, because every parser in the parse table constructs its
geometry through the unbound identifier Supermap; decoding therefore
never returns the encoded feature. -/
theorem wkt_roundtrip_crash :
    WKT_write (.one ⟨Geometry.point 1 2⟩) = "POINT(1 2)" ∧
    WKT_read "POINT(1 2)" = .error .referenceError :=
  ⟨rfl, rfl⟩

/-- C4: the geometrycollection body is split by marking every comma
followed by a letter and splitting on the marker, exactly as claimed,
but the recursive decode of each fragment is written as the static
access WKT.read, which is undefined because read is an instance method;
the decode of a collection therefore throws a TypeError instead of
recursing. -/
theorem wkt_gc_static_read_crash :
    gcSplit "POINT(1 2),POINT(3 4)" = ["POINT(1 2)", "POINT(3 4)"] ∧
    WKT_read "GEOMETRYCOLLECTION(POINT(1 2),POINT(3 4))" = .error .typeError :=
  ⟨rfl, rfl⟩

/-- C5: the multilinestring and polygon bodies are indeed split only at
the parenComma boundary and the multipolygon body at the
doubleParenComma boundary, as claimed, but the claimed decode results
are never produced: the parsers throw a ReferenceError through the
unbound identifier Supermap before any component is built. -/
theorem wkt_structural_split_crash :
    splitParenComma "(0 0,1 1),(2 2,3 3)" = ["(0 0,1 1", "2 2,3 3)"] ∧
    (splitParenComma "(0 0,1 1),(2 2,3 3)").map trimParens = ["0 0,1 1", "2 2,3 3"] ∧
    splitDoubleParenComma "((0 0,1 0,1 1,0 0)),((2 2,3 2,3 3,2 2))" =
      ["((0 0,1 0,1 1,0 0", "2 2,3 2,3 3,2 2))"] ∧
    WKT_read "MULTILINESTRING((0 0,1 1),(2 2,3 3))" = .error .referenceError ∧
    WKT_read "MULTIPOLYGON(((0 0,1 0,1 1,0 0)),((2 2,3 2,3 3,2 2)))" =
      .error .referenceError :=
  ⟨rfl, rfl, rfl, rfl, rfl⟩

/-- C7: the point body parser does split on whitespace as claimed, but
it never produces a Point and never reaches a numeric parse: the
construction dereferences the unbound identifier Supermap, so even a
fully numeric body throws a ReferenceError. -/
theorem wkt_point_parse_crash :
    splitSpaces (jsTrim "1 2") = ["1", "2"] ∧
    parse_point "1 2" = .error .referenceError ∧
    WKT_read "POINT(3 4)" = .error .referenceError :=
  ⟨rfl, rfl, rfl⟩

/-- The supported WKT type keywords (WKT.js lines 28-30). -/
def supportedKinds : List String :=
  ["point", "multipoint", "linestring", "multilinestring", "polygon", "multipolygon",
    "geometrycollection"]

/-- A keyword outside the supported set that is also neither of the two
lower-case inherited property names has no parse table hit. -/
theorem parseTable_eq_none (ty : String) (h : ty ∉ supportedKinds)
    (hc : ty ≠ "constructor") (hp : ty ≠ "__proto__") : parseTable ty = none := by
  unfold parseTable
  simp only [supportedKinds, List.mem_cons, List.not_mem_nil, or_false, not_or] at h
  obtain ⟨h1, h2, h3, h4, h5, h6, h7⟩ := h
  simp [h1, h2, h3, h4, h5, h6, h7, hc, hp]

/-- C6 counterexample: two unsupported type keywords on which WKT.read
does not return an absent result.  The lookup this.parse[type] walks
the prototype chain of the plain-object table: the keyword __proto__
finds the prototype object, which has no apply method, so read throws a
TypeError into caller control flow; the keyword constructor finds the
Object function, whose apply wraps the body in a String object that
read then returns as a present result. -/
theorem wkt_read_inherited_lookup_cex :
    WKT_read "__PROTO__(1 2)" = .error .typeError ∧
    WKT_read "CONSTRUCTOR(1 2)" = .ok (some (.stringObject "1 2")) ∧
    WKT_read "__PROTO__(1 2)" ≠ .ok none ∧
    WKT_read "CONSTRUCTOR(1 2)" ≠ .ok none :=
  ⟨rfl, rfl,
    by rw [show WKT_read "__PROTO__(1 2)" = .error .typeError from rfl]; simp,
    by rw [show WKT_read "CONSTRUCTOR(1 2)" = .ok (some (.stringObject "1 2")) from rfl]; simp⟩

/-- C6 amended: for every input string failing the outer typeStr
grammar match, and for every input whose lower-cased type keyword is
neither one of the seven supported kinds nor one of the two lower-case
property names inherited from the table prototype (constructor and
__proto__), WKT.read returns the absent result rather than throwing or
raising into caller control flow. -/
theorem wkt_read_unsupported (s : String) :
    (typeStrExec (normalizeBreaks s) = none → WKT_read s = .ok none) ∧
    (∀ ty body, typeStrExec (normalizeBreaks s) = some (ty, body) →
      jsLower ty ∉ supportedKinds → jsLower ty ≠ "constructor" → jsLower ty ≠ "__proto__" →
      WKT_read s = .ok none) := by
  constructor
  · intro h
    unfold WKT_read
    rw [h]
  · intro ty body h hmem hc hp
    unfold WKT_read
    rw [h]
    show (match parseTable (jsLower ty) with
      | none => (Except.ok none : Except JsErr (Option WKTResult))
      | some (.parser p) => (p body).map some
      | some .objectCtor => .ok (some (.stringObject body))
      | some .objectProto => .error .typeError) = .ok none
    rw [parseTable_eq_none _ hmem hc hp]

/-- Witness for the amended C6 at the unsupported keyword example of
the claim. -/
theorem wkt_read_unsupported_w : WKT_read "NOTAGEOM(1 2)" = .ok none :=
  (wkt_read_unsupported "NOTAGEOM(1 2)").2 "NOTAGEOM" "1 2" rfl (by decide) (by decide)
    (by decide)
